import Mathlib

/-!
Verification development for the `cozowow` wrapper (`src/cozowow/main.py`).

The wrapper is a string-building facade over an external CozoDB client.
We shallowly embed the Python values it manipulates (`PyVal`), the literal
formatters (`format_value`, `format_validity`), the relation-access and
mutation script builders, the query-options bag, the pass-through script
executor, and the bulk put/remove delegation paths, and prove the spec's
claims about them.

Python conventions mirrored by the embedding:
 - a Python `dict` is modelled as an insertion-ordered association list with
   unique keys; `dict.get(k, None)` is `(row.lookup k).getD PyVal.pnone`;
 - `bool` is a subclass of `int` in Python, so `isinstance(x, (int, float))`
   and `isinstance(x, (int, list))` are true for booleans; the embedding's
   `isIntFloat` / `isIntList` reflect this;
 - `x is not None` is a constructor test, modelled by `PyVal.isNone`;
 - truthiness of a list/str/dict is non-emptiness.
-/

namespace Cozowow

/-- Model of the Python values the wrapper formats: strings, booleans, `None`,
arbitrary-precision integers, floats (carried by their `str()` rendering,
since no float arithmetic is performed by the code), lists, and a catch-all
for any other object (carried by its `str()` rendering). -/
inductive PyVal : Type
| pstr (s : String)
| pbool (b : Bool)
| pnone
| pint (n : Int)
| pfloat (r : String)
| plist (xs : List PyVal)
| pother (r : String)

mutual

/-- Python `repr` of a value, as used by `str()` on list elements.  For
numbers, booleans and `None`, `repr` and `str` agree; strings are wrapped in
single quotes (escaping subtleties inside `repr` of strings are not exercised
by any claim). -/
def pyRepr : PyVal → String
| PyVal.pstr s => "\x27" ++ s ++ "\x27"
| PyVal.pbool b => if b then "True" else "False"
| PyVal.pnone => "None"
| PyVal.pint n => toString n
| PyVal.pfloat r => r
| PyVal.plist xs => "[" ++ String.intercalate ", " (pyReprList xs) ++ "]"
| PyVal.pother r => r

/-- `pyRepr` mapped over a list (explicit recursion over the nested list). -/
def pyReprList : List PyVal → List String
| [] => []
| x :: xs => pyRepr x :: pyReprList xs

end

/-- Python `str()` of a value: strings render as themselves, lists render
with `repr` of their elements, everything else agrees with `pyRepr`. -/
def pyStr : PyVal → String
| PyVal.pstr s => s
| v => pyRepr v

/-- Character-level model of the source's `val.replace('"', '\\"')`: every
double-quote character is replaced by a backslash followed by the quote;
every other character is kept unchanged. -/
def escQuote : List Char → List Char
| [] => []
| c :: cs => if c = '\"' then '\\' :: '\"' :: escQuote cs else c :: escQuote cs

/-- Mirror of Python's `isinstance(v, (int, float))`.  Booleans are `int`s
in Python, so they satisfy this test. -/
def isIntFloat : PyVal → Bool
| PyVal.pint _ => true
| PyVal.pfloat _ => true
| PyVal.pbool _ => true
| _ => false

/-- Mirror of Python's `x is None`. -/
def PyVal.isNone : PyVal → Bool
| PyVal.pnone => true
| _ => false

/-- Embedding of `format_value` (main.py lines 8-24): strings are wrapped in
double quotes with embedded quotes escaped, booleans become `true`/`false`,
`None` becomes `null`, a two-element `[number, boolean]` list becomes a
validity tuple, and everything else falls back to Python `str()`. -/
def format_value : PyVal → String
| PyVal.pstr s => "\"" ++ String.mk (escQuote s.data) ++ "\""
| PyVal.pbool b => if b then "true" else "false"
| PyVal.pnone => "null"
| PyVal.plist [v0, PyVal.pbool b] =>
    if isIntFloat v0 then
      "[" ++ pyStr v0 ++ ", " ++ (if b then "true" else "false") ++ "]"
    else pyStr (PyVal.plist [v0, PyVal.pbool b])
| v => pyStr v

/-- Character-level model of Python's `str.upper()` (the keywords involved
are plain ASCII, where Python and Lean upper-casing agree). -/
def pyUpper (s : String) : String := String.mk (s.data.map Char.toUpper)

/-- The four temporal keywords recognised by `format_validity`. -/
def validityKeywords : List String := ["NOW", "END", "ASSERT", "RETRACT"]

/-- Embedding of `format_validity` (main.py lines 27-33): a string whose
upper-casing is a temporal keyword is wrapped in single quotes; an `int` or
`list` (booleans are `int`s) renders with Python `str()`; anything else
defers to `format_value`. -/
def format_validity : PyVal → String
| PyVal.pstr s =>
    if validityKeywords.contains (pyUpper s) then "\x27" ++ pyUpper s ++ "\x27"
    else format_value (PyVal.pstr s)
| PyVal.pint n => pyStr (PyVal.pint n)
| PyVal.pbool b => pyStr (PyVal.pbool b)
| PyVal.plist xs => pyStr (PyVal.plist xs)
| v => format_value v

/-- A Python `dict` row: insertion-ordered association list from column name
to value. -/
abbrev Row : Type := List (String × PyVal)

/-- Embedding of the `RelationSpec` dataclass (main.py lines 69-76). -/
structure RelationSpec where
  name : String
  keys : List String
  values : List String := []
  temporal : Bool := false

/-- Embedding of `CozoDB.build_mutation_spec` (main.py lines 142-149). -/
def build_mutation_spec (spec : RelationSpec) : String :=
  let keys_str := String.intercalate ", " spec.keys
  if !spec.values.isEmpty then
    "\x7b" ++ keys_str ++ " => " ++ String.intercalate ", " spec.values ++ "\x7d"
  else
    "\x7b" ++ keys_str ++ "\x7d"

/-- The validation errors `mutate_relation` / `remove_rows` raise, with the
data their messages interpolate: `emptyData` is `"Data cannot be empty"`,
`emptyKeys` is `"Keys cannot be empty"`, `missingKeys m r` is
`"Missing required keys {m} in row {r}"`, and `missingKeysInKey m r` is
`"Missing required keys {m} in key {r}"`. -/
inductive ValError where
| emptyData
| emptyKeys
| missingKeys (missing : List String) (row : Row)
| missingKeysInKey (missing : List String) (row : Row)

/-- The set `required_keys - set(row.keys())`, as a duplicate-free list. -/
def missingOf (keys : List String) (row : Row) : List String :=
  (keys.filter (fun k => (List.lookup k row).isNone)).dedup

/-- One row rendered as a positional literal tuple over the given columns,
with `row.get(col, None)` semantics for absent columns. -/
def rowLiteral (columns : List String) (row : Row) : String :=
  "[" ++ String.intercalate ", "
    (columns.map (fun col => format_value ((List.lookup col row).getD PyVal.pnone))) ++ "]"

/-- Embedding of `CozoDB.mutate_relation` (main.py lines 151-184), after the
single-dict-to-list normalisation.  The result is the script passed to
`self.script` (hence to `client.run`) on success, or the `ValueError` raised
before any script is built. -/
def mutate_relation (op_name : String) (relation : String) (spec : RelationSpec)
    (data : List Row) (returning : Bool) : Except ValError String :=
  if data.isEmpty then Except.error ValError.emptyData
  else
    match data.findSome? (fun row =>
        let m := missingOf spec.keys row
        if m.isEmpty then none else some (m, row)) with
    | some mr => Except.error (ValError.missingKeys mr.1 mr.2)
    | none =>
      let columns := spec.keys ++ spec.values
      let rows := data.map (rowLiteral columns)
      let constant_rule :=
        "?[" ++ String.intercalate ", " columns ++ "] <- [" ++ String.intercalate ", " rows ++ "]"
      let spec_str := build_mutation_spec spec
      let script := constant_rule ++ "\n:" ++ op_name ++ " " ++ relation ++ " " ++ spec_str
      Except.ok (if returning then script ++ " :returning" else script)

/-- Embedding of `CozoDB.remove_rows` (main.py lines 196-230), after the
single-dict-to-list normalisation. -/
def remove_rows (relation : String) (spec : RelationSpec)
    (keys : List Row) (returning : Bool) : Except ValError String :=
  if keys.isEmpty then Except.error ValError.emptyKeys
  else
    match keys.findSome? (fun key_dict =>
        let m := missingOf spec.keys key_dict
        if m.isEmpty then none else some (m, key_dict)) with
    | some mr => Except.error (ValError.missingKeysInKey mr.1 mr.2)
    | none =>
      let key_columns := spec.keys
      let rows := keys.map (rowLiteral key_columns)
      let constant_rule :=
        "?[" ++ String.intercalate ", " key_columns ++ "] <- [" ++ String.intercalate ", " rows ++ "]"
      let spec_str := "\x7b" ++ String.intercalate ", " key_columns ++ "\x7d"
      let script := constant_rule ++ "\n:rm " ++ relation ++ " " ++ spec_str
      Except.ok (if returning then script ++ " :returning" else script)

/-- `put_relation` delegates to `mutate_relation` with op `"put"` (lines
186-194); `insert_relation`, `update_relation`, `delete_relation`,
`ensure_relation` and `ensure_not_relation` are the same shape. -/
def put_relation (relation : String) (spec : RelationSpec) (data : List Row)
    (returning : Bool) : Except ValError String :=
  mutate_relation "put" relation spec data returning

/-- Scripts a `mutate_relation` call passes to `self.script` (and hence to
`client.run`): exactly one on success, none when a `ValueError` is raised. -/
def mutateCalls (op_name : String) (relation : String) (spec : RelationSpec)
    (data : List Row) (returning : Bool) : List String :=
  match mutate_relation op_name relation spec data returning with
  | Except.ok s => [s]
  | Except.error _ => []

/-- Scripts a `remove_rows` call passes to `self.script`. -/
def removeCalls (relation : String) (spec : RelationSpec)
    (keys : List Row) (returning : Bool) : List String :=
  match remove_rows relation spec keys returning with
  | Except.ok s => [s]
  | Except.error _ => []

/-- One column of a relation-access atom: `"col: literal"` when the `where`
mapping is truthy and contains the column, the bare name otherwise.  Python's
`where and col in where` is falsy for `None` and for an empty dict; since
`List.lookup` on `[]` is `none`, `Option.bind` models both at once. -/
def renderWhereCol (w : Option (List (String × PyVal))) (col : String) : String :=
  match w.bind (fun m => List.lookup col m) with
  | some x => col ++ ": " ++ format_value x
  | none => col

/-- The `col_reprs` list of `CozoDB.build_stored_relation_access` after the
optional validity rewrite of its last element (main.py lines 289-297). -/
def accessCols (columns : List String) (w : Option (List (String × PyVal)))
    (validity : Option PyVal) : List String :=
  let col_reprs := columns.map (renderWhereCol w)
  match validity with
  | some v =>
      if col_reprs.isEmpty then col_reprs
      else col_reprs.dropLast ++ [columns.getLastD "" ++ " @ " ++ format_validity v]
  | none => col_reprs

/-- Embedding of `CozoDB.build_stored_relation_access` (main.py lines
281-299). -/
def build_stored_relation_access (name : String) (columns : List String)
    (w : Option (List (String × PyVal))) (validity : Option PyVal) : String :=
  "*" ++ name ++ "\x7b" ++ String.intercalate ", " (accessCols columns w validity) ++ "\x7d"

/-- The `Union[str, List[str]]` type of `QueryOptions.order`. -/
inductive OrderSpec where
| str (s : String)
| list (l : List String)

/-- Embedding of the `QueryOptions` dataclass (main.py lines 36-46). -/
structure QueryOptions where
  order : Option OrderSpec := none
  offset : Option Int := none
  limit : Option Int := none
  timeout : Option Int := none
  sleep : Option Int := none
  assert_ : Option String := none
  extra : List (String × PyVal) := []

/-- Python truthiness of the optional `order` field: `None`, `""` and `[]`
are falsy. -/
def orderTruthy : Option OrderSpec → Bool
| none => false
| some (OrderSpec.str s) => !(s == "")
| some (OrderSpec.list l) => !l.isEmpty

/-- The string stored under `"order"`: a list is joined with `", "`. -/
def renderOrder : OrderSpec → String
| OrderSpec.str s => s
| OrderSpec.list l => String.intercalate ", " l

/-- Python `d[k] = v` on an insertion-ordered dict: replace the value at the
key's (unique) occurrence in place when the key exists, append the new entry
otherwise. -/
def dictAssign : List (String × PyVal) → String → PyVal → List (String × PyVal)
| [], k, v => [(k, v)]
| p :: rest, k, v => if p.1 == k then (p.1, v) :: rest else p :: dictAssign rest k v

/-- Python `d.update(e)`: assign every entry of `e` into `d`, in order. -/
def dictUpdate (d e : List (String × PyVal)) : List (String × PyVal) :=
  e.foldl (fun acc p => dictAssign acc p.1 p.2) d

/-- The `opts["order"]` assignment of `as_dict`: present only when the
`order` field is truthy, holding the (possibly joined) order string. -/
def orderSeg : Option OrderSpec → List (String × PyVal)
| some o => if orderTruthy (some o) then [("order", PyVal.pstr (renderOrder o))] else []
| none => []

/-- An `opts[k] = v` assignment guarded by `v is not None`, for the integer
options offset/limit/timeout/sleep. -/
def intSeg (k : String) : Option Int → List (String × PyVal)
| some n => [(k, PyVal.pint n)]
| none => []

/-- An `opts[k] = v` assignment guarded by `v is not None`, for the string
option `assert`. -/
def strSeg (k : String) : Option String → List (String × PyVal)
| some s => [(k, PyVal.pstr s)]
| none => []

/-- Embedding of `QueryOptions.as_dict` (main.py lines 48-66): each guarded
assignment appends its (distinctly named) entry to the fresh `opts` dict in
source order — order, offset, limit, timeout, sleep, assert —, then
`opts.update(self.extra)` merges the extras last. -/
def QueryOptions.as_dict (q : QueryOptions) : List (String × PyVal) :=
  dictUpdate
    (orderSeg q.order ++ intSeg "offset" q.offset ++ intSeg "limit" q.limit
      ++ intSeg "timeout" q.timeout ++ intSeg "sleep" q.sleep ++ strSeg "assert" q.assert_)
    q.extra

/-- The parameter mapping passed to `client.run`. -/
abbrev Params : Type := List (String × PyVal)

/-- The injected database client of `CozoDB.script`, reduced to the one
method the wrapper calls: `run(script, params)`, which either returns a
result or raises. -/
structure Client (E R : Type) where
  behavior : String → Params → Except E R

/-- One invocation of `client.run`, recorded in a call trace. -/
def clientRun {E R : Type} (c : Client E R) (trace : List (String × Params))
    (s : String) (p : Params) : List (String × Params) × Except E R :=
  (trace ++ [(s, p)], c.behavior s p)

/-- Embedding of `CozoDB.script` (main.py lines 117-128): default the
parameters to `{}`, call `client.run` once inside `try`, log and `raise`
the same exception on failure, return the result on success. -/
def script {E R : Type} (c : Client E R) (trace : List (String × Params))
    (s : String) (params : Option Params) : List (String × Params) × Except E R :=
  let p := match params with
    | none => []
    | some p => p
  let res := clientRun c trace s p
  match res.2 with
  | Except.error e => (res.1, Except.error e)
  | Except.ok r => (res.1, Except.ok r)

/-- Python truthiness of `Optional[str]`: `None` and `""` are falsy. -/
def strTruthy : Option String → Bool
| none => false
| some s => !(s == "")

/-- Python `row.setdefault(f, v)`: insert `(f, v)` at the end only when `f`
is not already a key of the row. -/
def setdefaultRow (row : Row) (f : String) (v : PyVal) : Row :=
  if (List.lookup f row).isSome then row else row ++ [(f, v)]

/-- Embedding of `CozoDB.put` (main.py lines 377-392), after the
single-dict-to-list normalisation: apply `setdefault` of the validity field
when both `validity_field` is truthy and `validity_value` is not `None`,
then forward to `client.put(relation, data)`.  The result is the argument
pair passed to `client.put`. -/
def put (relation : String) (data : List Row) (validity_field : Option String)
    (validity_value : PyVal) : String × List Row :=
  let data :=
    if strTruthy validity_field && !validity_value.isNone then
      data.map (fun row => setdefaultRow row (validity_field.getD "") validity_value)
    else data
  (relation, data)

/-- Embedding of `CozoDB.remove` (main.py lines 394-400), after the
single-dict-to-list normalisation: forward to `client.rm(relation, keys)`
unchanged.  The result is the argument pair passed to `client.rm`. -/
def remove (relation : String) (keys : List Row) : String × List Row :=
  (relation, keys)

/-- The calls a transaction scope can issue on its handle when it exits. -/
inductive TxCall where
| commit
| abort

instance : DecidableEq TxCall := fun a b => by
  cases a <;> cases b <;> first
  | exact isTrue rfl
  | exact isFalse (by intro h; cases h)

/-- Modelled from the spec: the transaction scope (a scoped resource wrapping
a client transaction handle with `commit`/`abort`) is not present under
`src/`; per the spec, on abnormal exit (an exception raised inside the
block) an abort is triggered rather than a commit, and on normal exit a
commit is attempted with an abort attempted as a fallback if the commit
itself fails.  The result lists the calls issued on the handle, in order. -/
def transaction_scope_exit (raised : Bool) (commitSucceeds : Bool) : List TxCall :=
  if raised then [TxCall.abort]
  else if commitSucceeds then [TxCall.commit]
  else [TxCall.commit, TxCall.abort]

/-- Values reaching `format_value`'s final `str(val)` fallback: everything
that is not a string, a boolean, `None`, or a two-element
`[isinstance-(int,float), bool]` list. -/
def fallsToStr : PyVal → Bool
| PyVal.pstr _ => false
| PyVal.pbool _ => false
| PyVal.pnone => false
| PyVal.plist [v0, PyVal.pbool _] => !(isIntFloat v0)
| _ => true

/-- Quote-escaping is character-local: each embedded double quote becomes a
backslash followed by the quote (escaped exactly once), and every other
character is kept verbatim. -/
theorem escQuote_eq_flatMap (l : List Char) :
    escQuote l = l.flatMap (fun c => if c = '\"' then ['\\', '\"'] else [c]) := by
  induction l with
  | nil => rfl
  | cons c cs ih =>
    by_cases hc : c = '\"'
    · simp [escQuote, hc, ih]
    · simp [escQuote, hc, ih]

/-- C4: `format_value` is a pure (total, deterministic Lean) function; a
string input is wrapped in double quotes with each embedded double quote
escaped exactly once (every quote becomes backslash-quote, all other
characters verbatim); booleans render as `true`/`false`; `None` renders as
`null`; a two-element `[number, boolean]` list (number in the sense of
Python's `isinstance(-, (int, float))`, which includes booleans) renders as
a validity tuple; every other value falls back to the generic string
conversion `str(val)`. -/
theorem format_value_correct :
    (∀ s : String, format_value (PyVal.pstr s) =
        "\"" ++ String.mk (s.data.flatMap (fun c => if c = '\"' then ['\\', '\"'] else [c])) ++ "\"")
    ∧ (∀ b : Bool, format_value (PyVal.pbool b) = if b then "true" else "false")
    ∧ format_value PyVal.pnone = "null"
    ∧ (∀ (v0 : PyVal) (b : Bool), isIntFloat v0 = true →
        format_value (PyVal.plist [v0, PyVal.pbool b]) =
          "[" ++ pyStr v0 ++ ", " ++ (if b then "true" else "false") ++ "]")
    ∧ (∀ v : PyVal, fallsToStr v = true → format_value v = pyStr v) := by
  refine ⟨?_, ?_, rfl, ?_, ?_⟩
  · intro s
    show "\"" ++ String.mk (escQuote s.data) ++ "\"" = _
    rw [escQuote_eq_flatMap]
  · intro b; cases b <;> rfl
  · intro v0 b h
    cases v0 with
    | pint n => rfl
    | pfloat r => rfl
    | pbool b2 => rfl
    | pstr s => simp [isIntFloat] at h
    | pnone => simp [isIntFloat] at h
    | plist l => simp [isIntFloat] at h
    | pother r => simp [isIntFloat] at h
  · intro v h
    cases v with
    | pstr s => simp [fallsToStr] at h
    | pbool b => simp [fallsToStr] at h
    | pnone => simp [fallsToStr] at h
    | pint n => rfl
    | pfloat r => rfl
    | pother r => rfl
    | plist xs =>
      cases xs with
      | nil => rfl
      | cons x t =>
        cases t with
        | nil => rfl
        | cons y t2 =>
          cases t2 with
          | cons z t3 => cases y <;> rfl
          | nil =>
            cases y with
            | pbool b =>
              have hx : isIntFloat x = false := by simpa [fallsToStr] using h
              simp [format_value, hx]
            | pstr s => rfl
            | pnone => rfl
            | pint n => rfl
            | pfloat r => rfl
            | plist l => rfl
            | pother r => rfl

/-- C4 witness: the escaping, validity-tuple and fallback clauses evaluated
at concrete inputs (note `[str, bool]` is not a validity pair and falls back
to Python `str`). -/
theorem format_value_correct_witness :
    format_value (PyVal.pstr "a\"b") = "\"a\\\"b\""
    ∧ format_value (PyVal.plist [PyVal.pint 2019, PyVal.pbool true]) = "[2019, true]"
    ∧ format_value (PyVal.plist [PyVal.pstr "x", PyVal.pbool true]) = "[\x27x\x27, True]" := by
  refine ⟨?_, ?_, ?_⟩
  · have h := format_value_correct.1 "a\"b"
    rw [h]; rfl
  · have h := format_value_correct.2.2.2.1 (PyVal.pint 2019) true rfl
    rw [h]; rfl
  · have h := format_value_correct.2.2.2.2 (PyVal.plist [PyVal.pstr "x", PyVal.pbool true]) rfl
    rw [h]; rfl

/-- Values on which `format_validity` defers to `format_value`: every scalar
that is neither a keyword string nor an `int`/`bool`/`list` (booleans are
`int`s for Python's `isinstance(val, (int, list))`). -/
def validityFallsThrough : PyVal → Bool
| PyVal.pstr s => !(validityKeywords.contains (pyUpper s))
| PyVal.pint _ => false
| PyVal.pbool _ => false
| PyVal.plist _ => false
| _ => true

/-- C7: a string whose upper-casing is one of the keywords NOW, END, ASSERT,
RETRACT (matched case-insensitively) is rendered by `format_validity` as the
upper-cased keyword in single quotes, which differs from `format_value`'s
double-quoted rendering of the same string; every other scalar input (not an
`int` or `list` in Python's `isinstance` sense) renders identically to
`format_value`. -/
theorem format_validity_keywords :
    (∀ s : String, validityKeywords.contains (pyUpper s) = true →
      format_validity (PyVal.pstr s) = "\x27" ++ pyUpper s ++ "\x27"
      ∧ format_validity (PyVal.pstr s) ≠ format_value (PyVal.pstr s))
    ∧ (∀ v : PyVal, validityFallsThrough v = true → format_validity v = format_value v) := by
  constructor
  · intro s h
    have h1 : format_validity (PyVal.pstr s) = "\x27" ++ pyUpper s ++ "\x27" := by
      simp only [format_validity]
      rw [h]
      simp
    refine ⟨h1, ?_⟩
    rw [h1]
    intro hq
    have h2 : format_value (PyVal.pstr s) = "\"" ++ String.mk (escQuote s.data) ++ "\"" := rfl
    rw [h2] at hq
    have hd := congrArg String.data hq
    have e1 : ("\x27" : String).data = ['\x27'] := rfl
    have e2 : ("\"" : String).data = ['\"'] := rfl
    rw [String.data_append, String.data_append, String.data_append, String.data_append, e1, e2] at hd
    simp at hd
  · intro v h
    cases v with
    | pstr s =>
      have hc : validityKeywords.contains (pyUpper s) = false := by
        simpa [validityFallsThrough] using h
      simp only [format_validity]
      rw [hc]
      simp [format_value]
    | pint n => simp [validityFallsThrough] at h
    | pbool b => simp [validityFallsThrough] at h
    | plist l => simp [validityFallsThrough] at h
    | pnone => rfl
    | pfloat r => rfl
    | pother r => rfl

/-- C7 witness: `"now"` renders as `'NOW'`, distinct from the double-quoted
`format_value` rendering, and `None` falls through to `format_value`. -/
theorem format_validity_keywords_witness :
    format_validity (PyVal.pstr "now") = "\x27NOW\x27"
    ∧ format_validity (PyVal.pstr "now") ≠ format_value (PyVal.pstr "now")
    ∧ format_validity PyVal.pnone = format_value PyVal.pnone := by
  refine ⟨(format_validity_keywords.1 "now" rfl).1, (format_validity_keywords.1 "now" rfl).2,
    format_validity_keywords.2 PyVal.pnone rfl⟩

/-- Membership in the missing-key set: exactly the declared keys absent from
the row. -/
theorem mem_missingOf (keys : List String) (row : Row) (k : String) :
    k ∈ missingOf keys row ↔ k ∈ keys ∧ List.lookup k row = none := by
  simp [missingOf, List.mem_dedup, List.mem_filter, Option.isNone_iff_eq_none]

/-- The validation scan finds an offending row whenever one exists. -/
theorem findSome?_missing (keys : List String) (data : List Row)
    (h : ∃ row, row ∈ data ∧ missingOf keys row ≠ []) :
    ∃ mr, data.findSome? (fun row =>
        let m := missingOf keys row
        if m.isEmpty then none else some (m, row)) = some mr
      ∧ mr.2 ∈ data ∧ mr.1 = missingOf keys mr.2 ∧ mr.1 ≠ [] := by
  induction data with
  | nil => simp at h
  | cons a t ih =>
    by_cases ha : missingOf keys a = []
    · obtain ⟨row, hrow, hm⟩ := h
      rcases List.mem_cons.mp hrow with rfl | hrt
      · exact absurd ha hm
      · obtain ⟨mr, hfind, hmem, hval, hne⟩ := ih ⟨row, hrt, hm⟩
        refine ⟨mr, ?_, List.mem_cons_of_mem _ hmem, hval, hne⟩
        have hfa : ((fun row =>
            let m := missingOf keys row
            if m.isEmpty then none else some (m, row)) a).isNone := by
          simp [ha]
        exact (List.findSome?_cons_of_isNone t hfa).trans hfind
    · have hemp : (missingOf keys a).isEmpty = false := by
        simpa [List.isEmpty_iff] using ha
      have hfa : ((fun row =>
          let m := missingOf keys row
          if m.isEmpty then none else some (m, row)) a).isSome := by
        simp [hemp]
      refine ⟨(missingOf keys a, a), ?_, List.mem_cons_self _ _, rfl, ha⟩
      exact (List.findSome?_cons_of_isSome t hfa).trans (by simp [hemp])

/-- The validation scan passes when every row supplies all declared keys. -/
theorem findSome?_allValid (keys : List String) (data : List Row)
    (h : ∀ row, row ∈ data → missingOf keys row = []) :
    data.findSome? (fun row =>
        let m := missingOf keys row
        if m.isEmpty then none else some (m, row)) = none := by
  refine List.findSome?_eq_none_iff.mpr ?_
  intro row hr
  simp [h row hr]

/-- C1: for every mutation op through `mutate_relation` and for
`remove_rows`, an empty row/key list raises the corresponding `ValueError`
(and no script reaches `self.script`, hence `client.run` is never invoked);
when any row omits a declared key column, the raised error carries an
offending row from the input and exactly the set of declared key columns
absent from that row; and every validation error means no script is passed
to the client. -/
theorem mutation_validation :
    (∀ op rel spec ret, mutate_relation op rel spec [] ret = Except.error ValError.emptyData
      ∧ mutateCalls op rel spec [] ret = [])
    ∧ (∀ op rel spec (data : List Row) ret,
        (∃ row, row ∈ data ∧ missingOf spec.keys row ≠ []) →
        ∃ m r, mutate_relation op rel spec data ret = Except.error (ValError.missingKeys m r)
          ∧ r ∈ data ∧ m = missingOf spec.keys r ∧ m ≠ []
          ∧ (∀ k, k ∈ m ↔ k ∈ spec.keys ∧ List.lookup k r = none))
    ∧ (∀ op rel spec data ret e, mutate_relation op rel spec data ret = Except.error e →
        mutateCalls op rel spec data ret = [])
    ∧ (∀ rel spec ret, remove_rows rel spec [] ret = Except.error ValError.emptyKeys
      ∧ removeCalls rel spec [] ret = [])
    ∧ (∀ rel spec (keys : List Row) ret,
        (∃ row, row ∈ keys ∧ missingOf spec.keys row ≠ []) →
        ∃ m r, remove_rows rel spec keys ret = Except.error (ValError.missingKeysInKey m r)
          ∧ r ∈ keys ∧ m = missingOf spec.keys r ∧ m ≠ []
          ∧ (∀ k, k ∈ m ↔ k ∈ spec.keys ∧ List.lookup k r = none))
    ∧ (∀ rel spec keys ret e, remove_rows rel spec keys ret = Except.error e →
        removeCalls rel spec keys ret = []) := by
  refine ⟨fun op rel spec ret => ⟨rfl, rfl⟩, ?_, ?_, fun rel spec ret => ⟨rfl, rfl⟩, ?_, ?_⟩
  · intro op rel spec data ret h
    obtain ⟨mr, hfind, hmem, hval, hne⟩ := findSome?_missing spec.keys data h
    have hne_data : data ≠ [] := by rintro rfl; simp at hmem
    have hemp : data.isEmpty = false := by simpa [List.isEmpty_iff] using hne_data
    refine ⟨mr.1, mr.2, ?_, hmem, hval, hne, ?_⟩
    · simp only [mutate_relation, hemp]
      rw [hfind]
      rfl
    · intro k
      rw [hval]
      exact mem_missingOf spec.keys mr.2 k
  · intro op rel spec data ret e h
    simp [mutateCalls, h]
  · intro rel spec keys ret h
    obtain ⟨mr, hfind, hmem, hval, hne⟩ := findSome?_missing spec.keys keys h
    have hne_data : keys ≠ [] := by rintro rfl; simp at hmem
    have hemp : keys.isEmpty = false := by simpa [List.isEmpty_iff] using hne_data
    refine ⟨mr.1, mr.2, ?_, hmem, hval, hne, ?_⟩
    · simp only [remove_rows, hemp]
      rw [hfind]
      rfl
    · intro k
      rw [hval]
      exact mem_missingOf spec.keys mr.2 k
  · intro rel spec keys ret e h
    simp [removeCalls, h]

/-- C1 witness: the spec's own example — keys `["a"]`, row `{"b": "three"}` —
raises a missing-key error naming exactly `a`, and the empty-list cases raise
before any script is passed to the client. -/
theorem mutation_validation_witness :
    (∃ m r, mutate_relation "put" "rel" ⟨"rel", ["a"], ["b"], false⟩ [[("b", PyVal.pstr "three")]] false
        = Except.error (ValError.missingKeys m r)
      ∧ r ∈ [[("b", PyVal.pstr "three")]] ∧ m = missingOf ["a"] r ∧ m ≠ []
      ∧ (∀ k, k ∈ m ↔ k ∈ ["a"] ∧ List.lookup k r = none))
    ∧ mutate_relation "put" "rel" ⟨"rel", ["a"], ["b"], false⟩ [] false = Except.error ValError.emptyData
    ∧ mutateCalls "put" "rel" ⟨"rel", ["a"], ["b"], false⟩ [] false = []
    ∧ (∃ m r, remove_rows "rel" ⟨"rel", ["a"], ["b"], false⟩ [[("b", PyVal.pstr "one")]] false
        = Except.error (ValError.missingKeysInKey m r) ∧ r ∈ [[("b", PyVal.pstr "one")]]
        ∧ m = missingOf ["a"] r ∧ m ≠ [] ∧ (∀ k, k ∈ m ↔ k ∈ ["a"] ∧ List.lookup k r = none))
    ∧ remove_rows "rel" ⟨"rel", ["a"], ["b"], false⟩ [] false = Except.error ValError.emptyKeys
    ∧ removeCalls "rel" ⟨"rel", ["a"], ["b"], false⟩ [] false = [] := by
  refine ⟨?_, (mutation_validation.1 "put" "rel" ⟨"rel", ["a"], ["b"], false⟩ false).1, ?_, ?_,
    (mutation_validation.2.2.2.1 "rel" ⟨"rel", ["a"], ["b"], false⟩ false).1, ?_⟩
  · exact mutation_validation.2.1 "put" "rel" ⟨"rel", ["a"], ["b"], false⟩
      [[("b", PyVal.pstr "three")]] false ⟨[("b", PyVal.pstr "three")], by simp, by decide⟩
  · exact mutation_validation.2.2.1 "put" "rel" ⟨"rel", ["a"], ["b"], false⟩ [] false
      ValError.emptyData (mutation_validation.1 "put" "rel" ⟨"rel", ["a"], ["b"], false⟩ false).1
  · exact mutation_validation.2.2.2.2.1 "rel" ⟨"rel", ["a"], ["b"], false⟩
      [[("b", PyVal.pstr "one")]] false ⟨[("b", PyVal.pstr "one")], by simp, by decide⟩
  · exact mutation_validation.2.2.2.2.2 "rel" ⟨"rel", ["a"], ["b"], false⟩ [] false
      ValError.emptyKeys (mutation_validation.2.2.2.1 "rel" ⟨"rel", ["a"], ["b"], false⟩ false).1

/-- The script shape the spec describes for a valid mutation: a constant
rule over the declared key-then-value columns, one positional literal tuple
per row in that same order, a `:op relation spec` directive, and a
`:returning` suffix exactly when requested. -/
def mutationScript (op_name relation : String) (spec : RelationSpec)
    (data : List Row) (returning : Bool) : String :=
  "?[" ++ String.intercalate ", " (spec.keys ++ spec.values) ++ "] <- ["
    ++ String.intercalate ", " (data.map (rowLiteral (spec.keys ++ spec.values))) ++ "]"
    ++ "\n:" ++ op_name ++ " " ++ relation ++ " " ++ build_mutation_spec spec
    ++ (if returning then " :returning" else "")

/-- C6: on every valid (non-empty, key-complete) row list, `mutate_relation`
produces exactly the script `mutationScript` describes and sends exactly
that script to the client; the mutation spec renders as
`{keys => values}`, or `{keys}` when there are no value columns. -/
theorem mutation_script_shape :
    ∀ (op rel : String) (spec : RelationSpec) (data : List Row) (ret : Bool),
      data ≠ [] →
      (∀ row, row ∈ data → missingOf spec.keys row = []) →
      mutate_relation op rel spec data ret = Except.ok (mutationScript op rel spec data ret)
      ∧ mutateCalls op rel spec data ret = [mutationScript op rel spec data ret]
      ∧ (spec.values ≠ [] → build_mutation_spec spec =
          "\x7b" ++ String.intercalate ", " spec.keys ++ " => "
            ++ String.intercalate ", " spec.values ++ "\x7d")
      ∧ (spec.values = [] → build_mutation_spec spec =
          "\x7b" ++ String.intercalate ", " spec.keys ++ "\x7d") := by
  intro op rel spec data ret hne hvalid
  have hemp : data.isEmpty = false := by simpa [List.isEmpty_iff] using hne
  have hfind := findSome?_allValid spec.keys data hvalid
  have h1 : mutate_relation op rel spec data ret = Except.ok (mutationScript op rel spec data ret) := by
    simp only [mutate_relation, hemp]
    rw [hfind]
    unfold mutationScript
    cases ret <;> simp
  refine ⟨h1, by simp [mutateCalls, h1], ?_, ?_⟩
  · intro hv
    have : spec.values.isEmpty = false := by simpa [List.isEmpty_iff] using hv
    simp [build_mutation_spec, this]
  · intro hv
    simp [build_mutation_spec, hv]

/-- C6 witness: a two-row put over keys `["a"]`, values `["b"]` with
`returning` produces the documented script verbatim. -/
theorem mutation_script_shape_witness :
    mutate_relation "put" "rel" ⟨"rel", ["a"], ["b"], false⟩
        [[("a", PyVal.pint 1), ("b", PyVal.pstr "one")], [("a", PyVal.pint 2), ("b", PyVal.pstr "two")]] true
      = Except.ok "?[a, b] <- [[1, \"one\"], [2, \"two\"]]\n:put rel \x7ba => b\x7d :returning" := by
  have h := (mutation_script_shape "put" "rel" ⟨"rel", ["a"], ["b"], false⟩
      [[("a", PyVal.pint 1), ("b", PyVal.pstr "one")], [("a", PyVal.pint 2), ("b", PyVal.pstr "two")]] true
      (by simp) (by decide)).1
  rw [h]
  rfl

/-- C2: `CozoDB.script` is a pure pass-through around `client.run`: it
invokes `run` exactly once with the script and the (defaulted) parameter
mapping, returns a successful result unmodified, and re-raises a failure
unchanged — no retry, no suppression.  Every facade method delegating to
`script` therefore inherits this behaviour. -/
theorem script_passthrough :
    ∀ (E R : Type) (c : Client E R) (trace : List (String × Params)) (s : String) (p : Option Params),
      script c trace s p = (trace ++ [(s, p.getD [])], c.behavior s (p.getD [])) := by
  intro E R c trace s p
  cases p with
  | none => cases hb : c.behavior s [] <;> simp [script, clientRun, hb]
  | some q => cases hb : c.behavior s q <;> simp [script, clientRun, hb]

/-- C3: a transaction scope that raises partway through issues an abort and
never a commit; a normal exit attempts a commit first, which is the sole
call when it succeeds, and is followed by a fallback abort when it fails. -/
theorem transaction_scope_correct :
    (∀ c, transaction_scope_exit true c = [TxCall.abort])
    ∧ (∀ c, TxCall.commit ∉ transaction_scope_exit true c)
    ∧ (∀ r, (transaction_scope_exit false r).head? = some TxCall.commit)
    ∧ transaction_scope_exit false true = [TxCall.commit]
    ∧ transaction_scope_exit false false = [TxCall.commit, TxCall.abort] := by decide

/-- C9: the bulk paths `put`/`remove` perform no key validation — they are
total functions that forward their arguments to `client.put`/`client.rm`
for every input, including an empty list and rows missing any columns; `put`
only applies `setdefault` of the validity field when the field is truthy and
the value is not `None`, leaving rows that already carry the field
unmodified and appending the default to those that lack it. -/
theorem bulk_put_remove_no_validation :
    (∀ rel (keys : List Row), remove rel keys = (rel, keys))
    ∧ (∀ rel (data : List Row) v, put rel data none v = (rel, data))
    ∧ (∀ rel (data : List Row) v, put rel data (some "") v = (rel, data))
    ∧ (∀ rel (data : List Row) f, put rel data f PyVal.pnone = (rel, data))
    ∧ (∀ rel (data : List Row) (f : String) v, strTruthy (some f) = true → v.isNone = false →
        put rel data (some f) v = (rel, data.map (fun row => setdefaultRow row f v)))
    ∧ (∀ (row : Row) f v, (List.lookup f row).isSome → setdefaultRow row f v = row)
    ∧ (∀ (row : Row) f v, List.lookup f row = none → setdefaultRow row f v = row ++ [(f, v)]) := by
  refine ⟨fun rel keys => rfl, fun rel data v => rfl, fun rel data v => rfl, ?_, ?_, ?_, ?_⟩
  · intro rel data f
    simp [put, PyVal.isNone]
  · intro rel data f v h1 h2
    simp [put, h1, h2]
  · intro row f v h
    simp [setdefaultRow, h]
  · intro row f v h
    simp [setdefaultRow, h]

/-- C9 witness: a row already carrying the validity field is forwarded
unmodified while a row lacking it gains the default, and an empty key list is
forwarded to `client.rm` as-is. -/
theorem bulk_put_remove_no_validation_witness :
    put "rel" [[("x", PyVal.pint 1)], [("vf", PyVal.pstr "s")]] (some "vf") (PyVal.pint 7)
      = ("rel", [[("x", PyVal.pint 1), ("vf", PyVal.pint 7)], [("vf", PyVal.pstr "s")]])
    ∧ remove "rel" [] = ("rel", []) := by
  constructor
  · have h := bulk_put_remove_no_validation.2.2.2.2.1 "rel"
      [[("x", PyVal.pint 1)], [("vf", PyVal.pstr "s")]] "vf" (PyVal.pint 7) rfl rfl
    rw [h]
    rfl
  · exact bulk_put_remove_no_validation.1 "rel" []

/-- Position `i` of the rendered column list (no validity): the bare name,
or `name: literal` exactly when the where-mapping binds that name. -/
theorem accessCols_none_getD (cols : List String) (w : List (String × PyVal)) (i : Nat)
    (h : i < cols.length) :
    (accessCols cols (some w) none).getD i "" =
      (match List.lookup (cols.getD i "") w with
       | some x => cols.getD i "" ++ ": " ++ format_value x
       | none => cols.getD i "") := by
  have hlen : i < (cols.map (renderWhereCol (some w))).length := by simpa using h
  rw [accessCols]
  rw [List.getD_eq_getElem _ _ hlen, List.getElem_map, ← List.getD_eq_getElem _ "" h]
  rfl

/-- Without a validity marker, one rendered entry per listed column. -/
theorem accessCols_length (cols : List String) (w : Option (List (String × PyVal))) :
    (accessCols cols w none).length = cols.length := by
  simp [accessCols]

/-- A where-entry whose key is not among the listed columns contributes
nothing to the rendered atom. -/
theorem accessCols_irrelevant_key (cols : List String) (w : List (String × PyVal))
    (v : Option PyVal) (k : String) (x : PyVal) (hk : k ∉ cols) :
    accessCols cols (some ((k, x) :: w)) v = accessCols cols (some w) v := by
  have hmap : cols.map (renderWhereCol (some ((k, x) :: w))) = cols.map (renderWhereCol (some w)) := by
    refine List.map_congr_left ?_
    intro col hcol
    have hne : (col == k) = false := by
      refine beq_eq_false_iff_ne.mpr ?_
      intro hlt
      exact hk (hlt ▸ hcol)
    simp [renderWhereCol, List.lookup, hne]
  simp [accessCols, hmap]

/-- A validity marker replaces the last rendered column with
`lastColumn @ validity`. -/
theorem accessCols_validity (cols : List String) (w : Option (List (String × PyVal)))
    (v : PyVal) (h : cols ≠ []) :
    accessCols cols w (some v) =
      (cols.map (renderWhereCol w)).dropLast
        ++ [cols.getLastD "" ++ " @ " ++ format_validity v] := by
  have : (cols.map (renderWhereCol w)).isEmpty = false := by
    simpa [List.isEmpty_iff] using h
  simp [accessCols, this]

/-- C5: `build_stored_relation_access` renders `*name{...}` over one entry
per listed column — the bare name, or `name: literal` exactly when the
equality mapping binds that listed column; mapping entries whose key is not
among the listed columns produce no output (`*airport{code, desc}` example
included); a supplied validity marker is attached to the last column with
the `@` temporal syntax. -/
theorem relation_access_rendering :
    (∀ name cols w v, build_stored_relation_access name cols w v
        = "*" ++ name ++ "\x7b" ++ String.intercalate ", " (accessCols cols w v) ++ "\x7d")
    ∧ (∀ cols (w : Option (List (String × PyVal))), (accessCols cols w none).length = cols.length)
    ∧ (∀ cols (w : List (String × PyVal)) (i : Nat), i < cols.length →
        (accessCols cols (some w) none).getD i "" =
          (match List.lookup (cols.getD i "") w with
           | some x => cols.getD i "" ++ ": " ++ format_value x
           | none => cols.getD i ""))
    ∧ (∀ cols (w : List (String × PyVal)) v k x, k ∉ cols →
        accessCols cols (some ((k, x) :: w)) v = accessCols cols (some w) v)
    ∧ (∀ cols w v, cols ≠ [] → accessCols cols w (some v) =
        (cols.map (renderWhereCol w)).dropLast
          ++ [cols.getLastD "" ++ " @ " ++ format_validity v])
    ∧ build_stored_relation_access "airport" ["code", "desc"]
        (some [("country", PyVal.pstr "US")]) none = "*airport\x7bcode, desc\x7d" :=
  ⟨fun _ _ _ _ => rfl, accessCols_length, accessCols_none_getD,
    accessCols_irrelevant_key, accessCols_validity, rfl⟩

/-- C5 witness: the indexed rendering, the no-output property of unlisted
where-keys, and the temporal attachment, each at a concrete input. -/
theorem relation_access_rendering_witness :
    (accessCols ["code", "desc"] (some [("country", PyVal.pstr "US")]) none).getD 0 "" = "code"
    ∧ accessCols ["a"] (some [("z", PyVal.pint 3), ("a", PyVal.pstr "x")]) none
        = accessCols ["a"] (some [("a", PyVal.pstr "x")]) none
    ∧ accessCols ["y"] (some []) (some (PyVal.pint 2019)) = ["y @ 2019"] := by
  refine ⟨?_, ?_, ?_⟩
  · exact (relation_access_rendering.2.2.1 ["code", "desc"] [("country", PyVal.pstr "US")] 0
      (by decide)).trans (by rfl)
  · exact relation_access_rendering.2.2.2.1 ["a"] [("a", PyVal.pstr "x")] none "z" (PyVal.pint 3)
      (by decide)
  · exact (relation_access_rendering.2.2.2.2.1 ["y"] (some []) (PyVal.pint 2019)
      (by decide)).trans (by rfl)

/-- C8: when a validity marker is supplied, the rendered entry for the last
listed column is `lastColumn @ validity` regardless of the equality mapping,
so a where-constraint on the last column is silently discarded: adding such
a constraint leaves the rendered atom unchanged (stated for a last column
not repeated earlier in the list). -/
theorem validity_overwrites_last_where :
    (∀ name cols (w : List (String × PyVal)) (v x : PyVal) (lc : String),
        cols.getLast? = some lc → lc ∉ cols.dropLast →
        build_stored_relation_access name cols (some ((lc, x) :: w)) (some v)
          = build_stored_relation_access name cols (some w) (some v))
    ∧ (∀ name cols w v, cols ≠ [] →
        build_stored_relation_access name cols w (some v)
          = "*" ++ name ++ "\x7b" ++ String.intercalate ", "
              ((cols.map (renderWhereCol w)).dropLast
                ++ [cols.getLastD "" ++ " @ " ++ format_validity v]) ++ "\x7d") := by
  constructor
  · intro name cols w v x lc hlast hnot
    have hne : cols ≠ [] := by rintro rfl; simp at hlast
    have hmap : (cols.map (renderWhereCol (some ((lc, x) :: w)))).dropLast
        = (cols.map (renderWhereCol (some w))).dropLast := by
      rw [← List.map_dropLast, ← List.map_dropLast]
      refine List.map_congr_left ?_
      intro col hcol
      have hne2 : (col == lc) = false := by
        refine beq_eq_false_iff_ne.mpr ?_
        intro hlt
        exact hnot (hlt ▸ hcol)
      simp [renderWhereCol, List.lookup, hne2]
    unfold build_stored_relation_access
    rw [accessCols_validity _ _ _ hne, accessCols_validity _ _ _ hne, hmap]
  · intro name cols w v hne
    unfold build_stored_relation_access
    rw [accessCols_validity _ _ _ hne]

/-- C8 witness: with columns `["a"]`, where `{"a": "x"}` and validity `1`,
the constraint on `a` is discarded and the atom renders as `*r{a @ 1}`. -/
theorem validity_overwrites_last_where_witness :
    build_stored_relation_access "r" ["a"] (some [("a", PyVal.pstr "x")]) (some (PyVal.pint 1))
      = build_stored_relation_access "r" ["a"] (some []) (some (PyVal.pint 1))
    ∧ build_stored_relation_access "r" ["a"] (some [("a", PyVal.pstr "x")]) (some (PyVal.pint 1))
      = "*r\x7ba @ 1\x7d" := by
  constructor
  · exact validity_overwrites_last_where.1 "r" ["a"] [] (PyVal.pint 1) (PyVal.pstr "x") "a"
      rfl (by decide)
  · exact (validity_overwrites_last_where.1 "r" ["a"] [] (PyVal.pint 1) (PyVal.pstr "x") "a"
      rfl (by decide)).trans (by rfl)


/-- Lookup over an append scans the left list first. -/
theorem lookup_append (k : String) (l1 l2 : List (String × PyVal)) :
    List.lookup k (l1 ++ l2) = (List.lookup k l1).or (List.lookup k l2) := by
  induction l1 with
  | nil => simp [List.lookup]
  | cons a t ih =>
    cases hb : (k == a.1) <;> simp [List.lookup, hb, ih]

theorem lookup_intSeg_self (k : String) (n : Option Int) :
    List.lookup k (intSeg k n) = n.map PyVal.pint := by
  cases n <;> simp [intSeg, List.lookup]

theorem lookup_intSeg_ne (k k2 : String) (n : Option Int) (h : (k == k2) = false) :
    List.lookup k (intSeg k2 n) = none := by
  cases n <;> simp [intSeg, List.lookup, h]

theorem lookup_strSeg_self (k : String) (s : Option String) :
    List.lookup k (strSeg k s) = s.map PyVal.pstr := by
  cases s <;> simp [strSeg, List.lookup]

theorem lookup_strSeg_ne (k k2 : String) (s : Option String) (h : (k == k2) = false) :
    List.lookup k (strSeg k2 s) = none := by
  cases s <;> simp [strSeg, List.lookup, h]

theorem lookup_orderSeg_ne (k : String) (o : Option OrderSpec) (h : (k == "order") = false) :
    List.lookup k (orderSeg o) = none := by
  cases o with
  | none => rfl
  | some o2 =>
    simp only [orderSeg]
    split <;> simp [List.lookup, h]

theorem lookup_orderSeg_falsy (o : Option OrderSpec) (h : orderTruthy o = false) :
    List.lookup "order" (orderSeg o) = none := by
  cases o with
  | none => rfl
  | some o2 => simp [orderSeg, h]

theorem lookup_dictAssign_self (d : List (String × PyVal)) (k : String) (v : PyVal) :
    List.lookup k (dictAssign d k v) = some v := by
  induction d with
  | nil => simp [dictAssign, List.lookup]
  | cons p rest ih =>
    by_cases hb : (p.1 == k) = true
    · have hk : (k == p.1) = true := by
        have h1 : p.1 = k := eq_of_beq hb
        simp [h1]
      simp [dictAssign, hb, List.lookup, hk]
    · have hb2 : (p.1 == k) = false := by simpa using hb
      have hk : (k == p.1) = false := by
        refine beq_eq_false_iff_ne.mpr ?_
        intro hlt
        exact (beq_eq_false_iff_ne.mp hb2) hlt.symm
      simp [dictAssign, hb2, List.lookup, hk, ih]

theorem lookup_dictAssign_ne (d : List (String × PyVal)) (k k2 : String) (v : PyVal)
    (h : (k == k2) = false) :
    List.lookup k (dictAssign d k2 v) = List.lookup k d := by
  induction d with
  | nil => simp [dictAssign, List.lookup, h]
  | cons p rest ih =>
    by_cases hb : (p.1 == k2) = true
    · have hk : (k == p.1) = false := by
        refine beq_eq_false_iff_ne.mpr ?_
        intro hlt
        exact (beq_eq_false_iff_ne.mp h) (hlt.trans (eq_of_beq hb))
      simp [dictAssign, hb, List.lookup, hk]
    · have hb2 : (p.1 == k2) = false := by simpa using hb
      cases hk : (k == p.1) <;> simp [dictAssign, hb2, List.lookup, hk, ih]

/-- Updating with extras that do not mention a key leaves its binding. -/
theorem lookup_dictUpdate_not_mem : ∀ (e d : List (String × PyVal)) (k : String),
    k ∉ e.map Prod.fst → List.lookup k (dictUpdate d e) = List.lookup k d := by
  intro e
  induction e with
  | nil => intro d k _; rfl
  | cons a t ih =>
    intro d k h
    have hk : (k == a.1) = false := by
      refine beq_eq_false_iff_ne.mpr ?_
      intro hlt
      exact h (by simp [hlt])
    have ht : k ∉ t.map Prod.fst := fun hm => h (by simp [hm])
    have hstep : dictUpdate d (a :: t) = dictUpdate (dictAssign d a.1 a.2) t := rfl
    rw [hstep, ih (dictAssign d a.1 a.2) k ht, lookup_dictAssign_ne _ _ _ _ hk]

/-- An entry of the update always wins because it is merged last. -/
theorem lookup_dictUpdate_mem : ∀ (e d : List (String × PyVal)) (k : String) (v : PyVal),
    (e.map Prod.fst).Nodup → (k, v) ∈ e → List.lookup k (dictUpdate d e) = some v := by
  intro e
  induction e with
  | nil => intro d k v _ h; simp at h
  | cons a t ih =>
    intro d k v hnd h
    have hstep : dictUpdate d (a :: t) = dictUpdate (dictAssign d a.1 a.2) t := rfl
    have hnd2 : a.1 ∉ t.map Prod.fst ∧ (t.map Prod.fst).Nodup := by
      simpa [List.nodup_cons] using hnd
    rcases List.mem_cons.mp h with heq | hmem
    · have hk1 : a.1 = k := by rw [← heq]
      have hv : a.2 = v := by rw [← heq]
      rw [hstep, lookup_dictUpdate_not_mem t (dictAssign d a.1 a.2) k (hk1 ▸ hnd2.1)]
      rw [← hk1, ← hv]
      exact lookup_dictAssign_self d a.1 a.2
    · rw [hstep]
      exact ih (dictAssign d a.1 a.2) k v hnd2.2 hmem

/-- C10: `QueryOptions.as_dict` includes offset, limit, timeout, sleep and
assert whenever their field is not `None` (so a value of `0` is emitted),
omits `order` whenever the field is falsy (`None`, `""` or `[]`), joins a
list-valued order with `", "`, and merges `extra` last so that an extra
entry under the same name overrides any fixed option.  The fixed-option
clauses are stated for extras that do not themselves rebind the option's
name; the final clause shows extras always win. -/
theorem query_options_as_dict :
    (∀ (q : QueryOptions) (n : Int), q.offset = some n → "offset" ∉ q.extra.map Prod.fst →
        List.lookup "offset" q.as_dict = some (PyVal.pint n))
    ∧ (∀ (q : QueryOptions) (n : Int), q.limit = some n → "limit" ∉ q.extra.map Prod.fst →
        List.lookup "limit" q.as_dict = some (PyVal.pint n))
    ∧ (∀ (q : QueryOptions) (n : Int), q.timeout = some n → "timeout" ∉ q.extra.map Prod.fst →
        List.lookup "timeout" q.as_dict = some (PyVal.pint n))
    ∧ (∀ (q : QueryOptions) (n : Int), q.sleep = some n → "sleep" ∉ q.extra.map Prod.fst →
        List.lookup "sleep" q.as_dict = some (PyVal.pint n))
    ∧ (∀ (q : QueryOptions) (s : String), q.assert_ = some s → "assert" ∉ q.extra.map Prod.fst →
        List.lookup "assert" q.as_dict = some (PyVal.pstr s))
    ∧ (∀ q : QueryOptions, orderTruthy q.order = false → "order" ∉ q.extra.map Prod.fst →
        List.lookup "order" q.as_dict = none)
    ∧ (∀ (q : QueryOptions) (l : List String), q.order = some (OrderSpec.list l) → l ≠ [] →
        "order" ∉ q.extra.map Prod.fst →
        List.lookup "order" q.as_dict = some (PyVal.pstr (String.intercalate ", " l)))
    ∧ (∀ (q : QueryOptions) (k : String) (v : PyVal), (q.extra.map Prod.fst).Nodup →
        (k, v) ∈ q.extra → List.lookup k q.as_dict = some v) := by
  refine ⟨?_, ?_, ?_, ?_, ?_, ?_, ?_, ?_⟩
  · intro q n hf hmem
    unfold QueryOptions.as_dict
    rw [lookup_dictUpdate_not_mem _ _ _ hmem]
    rw [lookup_append, lookup_append, lookup_append, lookup_append, lookup_append]
    rw [lookup_orderSeg_ne _ _ (by decide), lookup_intSeg_self, lookup_intSeg_ne _ _ _ (by decide),
        lookup_intSeg_ne _ _ _ (by decide), lookup_intSeg_ne _ _ _ (by decide),
        lookup_strSeg_ne _ _ _ (by decide), hf]
    simp
  · intro q n hf hmem
    unfold QueryOptions.as_dict
    rw [lookup_dictUpdate_not_mem _ _ _ hmem]
    rw [lookup_append, lookup_append, lookup_append, lookup_append, lookup_append]
    rw [lookup_orderSeg_ne _ _ (by decide), lookup_intSeg_self, lookup_intSeg_ne _ _ _ (by decide),
        lookup_intSeg_ne _ _ _ (by decide), lookup_intSeg_ne _ _ _ (by decide),
        lookup_strSeg_ne _ _ _ (by decide), hf]
    simp
  · intro q n hf hmem
    unfold QueryOptions.as_dict
    rw [lookup_dictUpdate_not_mem _ _ _ hmem]
    rw [lookup_append, lookup_append, lookup_append, lookup_append, lookup_append]
    rw [lookup_orderSeg_ne _ _ (by decide), lookup_intSeg_self, lookup_intSeg_ne _ _ _ (by decide),
        lookup_intSeg_ne _ _ _ (by decide), lookup_intSeg_ne _ _ _ (by decide),
        lookup_strSeg_ne _ _ _ (by decide), hf]
    simp
  · intro q n hf hmem
    unfold QueryOptions.as_dict
    rw [lookup_dictUpdate_not_mem _ _ _ hmem]
    rw [lookup_append, lookup_append, lookup_append, lookup_append, lookup_append]
    rw [lookup_orderSeg_ne _ _ (by decide), lookup_intSeg_self, lookup_intSeg_ne _ _ _ (by decide),
        lookup_intSeg_ne _ _ _ (by decide), lookup_intSeg_ne _ _ _ (by decide),
        lookup_strSeg_ne _ _ _ (by decide), hf]
    simp
  · intro q s hf hmem
    unfold QueryOptions.as_dict
    rw [lookup_dictUpdate_not_mem _ _ _ hmem]
    rw [lookup_append, lookup_append, lookup_append, lookup_append, lookup_append]
    rw [lookup_orderSeg_ne _ _ (by decide), lookup_strSeg_self, lookup_intSeg_ne _ _ _ (by decide),
        lookup_intSeg_ne _ _ _ (by decide), lookup_intSeg_ne _ _ _ (by decide),
        lookup_intSeg_ne _ _ _ (by decide), hf]
    simp
  · intro q hf hmem
    unfold QueryOptions.as_dict
    rw [lookup_dictUpdate_not_mem _ _ _ hmem]
    rw [lookup_append, lookup_append, lookup_append, lookup_append, lookup_append]
    rw [lookup_orderSeg_falsy _ hf, lookup_intSeg_ne _ _ _ (by decide),
        lookup_intSeg_ne _ _ _ (by decide), lookup_intSeg_ne _ _ _ (by decide),
        lookup_intSeg_ne _ _ _ (by decide), lookup_strSeg_ne _ _ _ (by decide)]
    simp
  · intro q l hf hl hmem
    unfold QueryOptions.as_dict
    rw [lookup_dictUpdate_not_mem _ _ _ hmem]
    rw [lookup_append, lookup_append, lookup_append, lookup_append, lookup_append]
    have hemp : l.isEmpty = false := by simpa [List.isEmpty_iff] using hl
    have hord : List.lookup "order" (orderSeg q.order)
        = some (PyVal.pstr (String.intercalate ", " l)) := by
      rw [hf]
      simp [orderSeg, orderTruthy, hemp, List.lookup, renderOrder]
    rw [hord, lookup_intSeg_ne _ _ _ (by decide), lookup_intSeg_ne _ _ _ (by decide),
        lookup_intSeg_ne _ _ _ (by decide), lookup_intSeg_ne _ _ _ (by decide),
        lookup_strSeg_ne _ _ _ (by decide)]
    simp
  · intro q k v hnd hm
    unfold QueryOptions.as_dict
    exact lookup_dictUpdate_mem _ _ _ _ hnd hm

/-- C10 witness: `offset = 0` is emitted, a falsy order (`""`) is omitted,
an extra entry overrides the fixed `limit`, and a list order joins with
`", "`. -/
theorem query_options_as_dict_witness :
    List.lookup "offset" (QueryOptions.as_dict
        { offset := some 0, order := some (OrderSpec.str ""), limit := some 5,
          extra := [("limit", PyVal.pint 99)] }) = some (PyVal.pint 0)
    ∧ List.lookup "order" (QueryOptions.as_dict
        { offset := some 0, order := some (OrderSpec.str ""), limit := some 5,
          extra := [("limit", PyVal.pint 99)] }) = none
    ∧ List.lookup "limit" (QueryOptions.as_dict
        { offset := some 0, order := some (OrderSpec.str ""), limit := some 5,
          extra := [("limit", PyVal.pint 99)] }) = some (PyVal.pint 99)
    ∧ List.lookup "order" (QueryOptions.as_dict
        { order := some (OrderSpec.list ["a", "b"]) }) = some (PyVal.pstr "a, b") := by
  refine ⟨?_, ?_, ?_, ?_⟩
  · exact query_options_as_dict.1 _ 0 rfl (by decide)
  · exact query_options_as_dict.2.2.2.2.2.1 _ rfl (by decide)
  · exact query_options_as_dict.2.2.2.2.2.2.2 _ "limit" (PyVal.pint 99) (by decide)
      (List.mem_singleton.mpr rfl)
  · exact (query_options_as_dict.2.2.2.2.2.2.1 _ ["a", "b"] rfl (by decide) (by decide)).trans rfl

end Cozowow
